import Mathlib

/-!
Verification of the transaction coordinator and gateway backstop logic of the
modelserver-node repository, shallowly embedded in Lean 4.

The embedding follows the TypeScript source:
* `DefaultTransactionContext` (model-server-client module): the frame stack of
  nested edit contexts, `mergeModelUpdateResult`, `applyPatch`, `execute` and
  `doExecute` with command providers, `commit` with the trigger loop,
  `rollback` and the `autoRollback` wrapper.
* `InternalModelServerClient.openTransaction` / `closeTransaction`: the
  per-model transaction map of the manager.
* `ModelServer.serve` (server.ts): backstop-path registration,
  `isModelServerRoute`, `shouldBackstop` and the forwarding decision.

Asynchronous wire interaction is modelled by explicit state passing: the
state records the messages sent on the transaction socket (each paired with
the value of the uuid-received flag at the moment of the send) and holds the
stream of pending upstream replies that the execute messages consume in
order.  Promise rejection is modelled by `Except String`.  Unbounded
recursion through provider transaction functions and the trigger loop is cut
off by explicit fuel; running out of fuel yields the artificial error
`"out of fuel"`, which no claimed trace reaches.
-/

set_option linter.unusedVariables false

namespace ModelserverNode

/-- The `ModelUpdateResult` shape `{ success, patch?, patchModel? }` of the
client API: `success` is a required boolean, `patch` an optional operation
array and `patchModel` an optional model value.  `Op` is the type of JSON
Patch operations and `Model` the type of model payloads, both opaque to the
coordinator. -/
structure ModelUpdateResult (Op Model : Type) where
  success : Bool
  patch : Option (List Op) := none
  patchModel : Option Model := none
deriving DecidableEq, Repr

/-- The constant `transactionClosed = { success: false }` returned when the
transaction is already closed or was rolled back. -/
def transactionClosed {Op Model : Type} : ModelUpdateResult Op Model :=
  { success := false }

/-- `mergeModelUpdateResult(dst, src)` from `DefaultTransactionContext`,
written functionally (the source mutates `dst` in place).  The body runs only
when `src?.patch && src.patch.length` is truthy, i.e. when `src` is present
and carries a nonempty patch; then `dst.success &&= src.success`,
`dst.patch = (dst.patch ?? []).concat(src.patch)`, and `dst.patchModel` is
replaced by `src.patchModel` when the updated `dst.success` and
`src.patchModel` are both truthy. -/
def mergeModelUpdateResult {Op Model : Type} (dst : ModelUpdateResult Op Model) :
    Option (ModelUpdateResult Op Model) → ModelUpdateResult Op Model
  | none => dst
  | some src =>
    match src.patch with
    | none => dst
    | some [] => dst
    | some ps =>
      let newSuccess := dst.success && src.success
      { success := newSuccess
        patch := some (dst.patch.getD [] ++ ps)
        patchModel :=
          if newSuccess && src.patchModel.isSome then src.patchModel else dst.patchModel }

/-- Payload of an outbound `execute` message: either an
`{type: "modelserver.emfcommand"}` command body or a
`{type: "modelserver.patch"}` patch body. -/
inductive ExecuteBody (Cmd Op : Type) where
  | cmd (c : Cmd)
  | patch (p : List Op)
deriving DecidableEq, Repr

/-- A message sent on the transaction socket: `execute`, `close` or
`roll-back` (inbound `incrementalUpdate` and `success` messages appear as
reply values, not as sent messages). -/
inductive TxMsg (Cmd Op : Type) where
  | execute (body : ExecuteBody Cmd Op)
  | close
  | rollBack
deriving DecidableEq, Repr

/-- Is this message the `close` message? -/
def TxMsg.isClose {Cmd Op : Type} : TxMsg Cmd Op → Bool
  | .close => true
  | _ => false

/-- Is this message the `roll-back` message? -/
def TxMsg.isRollBack {Cmd Op : Type} : TxMsg Cmd Op → Bool
  | .rollBack => true
  | _ => false

/-- Is this message an `execute` message? -/
def TxMsg.isExecuteMsg {Cmd Op : Type} : TxMsg Cmd Op → Bool
  | .execute _ => true
  | _ => false

/-- State of a `DefaultTransactionContext` together with its observable wire
trace.  `frames` is the `nestedContexts` stack (head is the deepest, current
frame), each holding an aggregated `ModelUpdateResult`.  `socketOpen` models
`isOpen()`.  `uuidReceived` records whether the transaction uuid (the first
textual message from Upstream) has arrived.  `sent` is the ordered list of
messages sent on the socket, each tagged with the value of `uuidReceived` at
the moment of the send.  `replies` is the stream of upstream replies still to
be consumed by execute messages: `.ok r` is a reply mapped to a
`ModelUpdateResult`, `.error e` a rejection of the reply promise. -/
structure TCState (Cmd Op Model : Type) where
  frames : List (ModelUpdateResult Op Model)
  socketOpen : Bool
  uuidReceived : Bool
  sent : List (TxMsg Cmd Op × Bool)
  replies : List (Except String (ModelUpdateResult Op Model))

/-- `socket.send`: append the message to the wire trace, recording whether the
uuid had been received at this point. -/
def socketSend {Cmd Op Model : Type} (m : TxMsg Cmd Op) (s : TCState Cmd Op Model) :
    TCState Cmd Op Model :=
  { s with sent := s.sent ++ [(m, s.uuidReceived)] }

/-- The fresh aggregate pushed for each nested context:
`MessageDataMapper.patchModel({type: success, data: {patch: []}})`, i.e. a
successful result with an empty patch and no patched model. -/
def initialAggregate {Op Model : Type} : ModelUpdateResult Op Model :=
  { success := true, patch := some [] }

/-- `pushNestedContext()`: push a frame holding a fresh empty aggregate. -/
def pushNestedContext {Cmd Op Model : Type} (s : TCState Cmd Op Model) :
    TCState Cmd Op Model :=
  { s with frames := initialAggregate :: s.frames }

/-- `popNestedContext()`: pop the deepest frame and, when a parent frame
remains, merge the popped aggregate into it; the popped aggregate is
returned.  The source crashes when the stack is empty (destructuring
`undefined`); no claimed trace pops an empty stack, and the model returns the
closed sentinel with the state unchanged in that unreachable case. -/
def popNestedContext {Cmd Op Model : Type} (s : TCState Cmd Op Model) :
    ModelUpdateResult Op Model × TCState Cmd Op Model :=
  match s.frames with
  | [] => (transactionClosed, s)
  | top :: rest =>
    match rest with
    | [] => (top, { s with frames := [] })
    | parent :: t =>
      (top, { s with frames := mergeModelUpdateResult parent (some top) :: t })

/-- `rollback(error)`: send a `roll-back` message when the socket is still
open, and in every case return the `transactionClosed` sentinel without
throwing. -/
def rollback {Cmd Op Model : Type} (e : String) (s : TCState Cmd Op Model) :
    ModelUpdateResult Op Model × TCState Cmd Op Model :=
  (transactionClosed, if s.socketOpen then socketSend .rollBack s else s)

/-- `autoRollback(editResult)`: pass successful results through; on rejection
invoke `rollback(reason)` and re-raise the reason. -/
def autoRollback {Cmd Op Model α : Type}
    (r : Except String α × TCState Cmd Op Model) :
    Except String α × TCState Cmd Op Model :=
  match r with
  | (.ok a, s) => (.ok a, s)
  | (.error e, s) => (.error e, (rollback e s).2)

/-- `sendExecuteMessage(body)`: reject with `'Socket is closed.'` when the
socket is not open; await the uuid (modelled as the uuid having arrived by
the time the await resumes); register the reply acceptor and send the
`execute` message; then consume the next upstream reply, merging a successful
reply into the current frame's aggregate before returning it.  An exhausted
reply stream models a reply promise that rejects. -/
def sendExecuteMessage {Cmd Op Model : Type} (body : ExecuteBody Cmd Op)
    (s : TCState Cmd Op Model) :
    Except String (ModelUpdateResult Op Model) × TCState Cmd Op Model :=
  if s.socketOpen then
    let s1 : TCState Cmd Op Model := { s with uuidReceived := true }
    let s2 := socketSend (.execute body) s1
    match s2.replies with
    | [] => (.error "no reply", s2)
    | rep :: rest =>
      let s3 := { s2 with replies := rest }
      match rep with
      | .error e => (.error e, s3)
      | .ok r =>
        match s3.frames with
        | [] => (.ok r, s3)
        | top :: t =>
          (.ok r, { s3 with frames := mergeModelUpdateResult top (some r) :: t })
  else
    (.error "Socket is closed.", s)

/-- `sendPatch(patch)`: wrap the patch in a `modelserver.patch` execute body. -/
def sendPatch {Cmd Op Model : Type} (p : List Op) (s : TCState Cmd Op Model) :
    Except String (ModelUpdateResult Op Model) × TCState Cmd Op Model :=
  sendExecuteMessage (.patch p) s

/-- `sendCommand(command)`: wrap the command in a `modelserver.emfcommand`
execute body. -/
def sendCommand {Cmd Op Model : Type} (c : Cmd) (s : TCState Cmd Op Model) :
    Except String (ModelUpdateResult Op Model) × TCState Cmd Op Model :=
  sendExecuteMessage (.cmd c) s

/-- `applyPatch(patch)`: reject with `'Socket is closed.'` when the socket is
not open; return `{success: false}` for a nil (`none`) or empty patch without
touching the wire; otherwise send the patch under `autoRollback`.  A single
operation of the source's `Operation | Operation[]` union is modelled as a
one-element list. -/
def applyPatch {Cmd Op Model : Type} (p : Option (List Op)) (s : TCState Cmd Op Model) :
    Except String (ModelUpdateResult Op Model) × TCState Cmd Op Model :=
  if s.socketOpen then
    match p with
    | none => (.ok { success := false }, s)
    | some [] => (.ok { success := false }, s)
    | some ps => autoRollback (sendPatch ps s)
  else
    (.error "Socket is closed.", s)

/-- A transaction function contributed by a command or trigger provider: it
performs further edits on the executor it is given and finally returns a
success flag.  Each edit's result is passed to the continuation; a rejected
edit rejects the whole function (the function `await`s without catching). -/
inductive TxFun (Cmd Op Model : Type) where
  | done (success : Bool)
  | editPatch (p : Option (List Op)) (k : ModelUpdateResult Op Model → TxFun Cmd Op Model)
  | editCmd (c : Cmd) (k : ModelUpdateResult Op Model → TxFun Cmd Op Model)

/-- Result of `CommandProviderRegistry.getCommands`: a transaction function, a
substitute command, or a substitute patch. -/
inductive Provided (Cmd Op Model : Type) where
  | txFun (f : TxFun Cmd Op Model)
  | cmd (c : Cmd)
  | patch (p : List Op)

/-- Result of `TriggerProviderRegistry.getTriggers`: either a patch
(`Operation[]`, possibly empty, which also stands for a falsy result) or a
transaction function. -/
inductive Triggers (Cmd Op Model : Type) where
  | txFun (f : TxFun Cmd Op Model)
  | patch (ops : List Op)

/-- The registries a transaction context consults: `hasProvider` keyed by the
command's type string, `getCommands` for the provided expansion, and
`getTriggers` for the trigger patches of a delta (awaited under
`autoRollback`, hence allowed to reject). -/
structure Env (Cmd Op Model : Type) where
  hasProvider : String → Bool
  cmdType : Cmd → String
  getCommands : Cmd → Provided Cmd Op Model
  getTriggers : List Op → Except String (Triggers Cmd Op Model)

/-- Run a transaction function against the context, performing its edits with
the given `execute` and `applyPatch` implementations.  A rejected edit
rejects the function; otherwise the final success flag is returned. -/
def runTxFun {Cmd Op Model : Type}
    (exec : Cmd → TCState Cmd Op Model →
      Except String (ModelUpdateResult Op Model) × TCState Cmd Op Model)
    (applyP : Option (List Op) → TCState Cmd Op Model →
      Except String (ModelUpdateResult Op Model) × TCState Cmd Op Model) :
    TxFun Cmd Op Model → TCState Cmd Op Model → Except String Bool × TCState Cmd Op Model
  | .done b, s => (.ok b, s)
  | .editPatch p k, s =>
    match applyP p s with
    | (.error e, s1) => (.error e, s1)
    | (.ok r, s1) => runTxFun exec applyP (k r) s1
  | .editCmd c k, s =>
    match exec c s with
    | (.error e, s1) => (.error e, s1)
    | (.ok r, s1) => runTxFun exec applyP (k r) s1

/-- One unfolding of `doExecute(modelUri, command)`, with nested command
execution performed by `exec`.  If no provider is registered for the
command's type, the command is sent along to the Model Server.  A provided
transaction function runs in a freshly pushed nested context: on `false` the
context is popped and the call rejects with `'Command execution failed.'`; on
`true` the context is popped and the popped aggregate returned; a rejection
propagates without popping.  A substitute command or patch is sent in the
usual way. -/
def doExecuteStep {Cmd Op Model : Type} (env : Env Cmd Op Model)
    (exec : Cmd → TCState Cmd Op Model →
      Except String (ModelUpdateResult Op Model) × TCState Cmd Op Model)
    (c : Cmd) (s : TCState Cmd Op Model) :
    Except String (ModelUpdateResult Op Model) × TCState Cmd Op Model :=
  if env.hasProvider (env.cmdType c) then
    match env.getCommands c with
    | .txFun f =>
      let s1 := pushNestedContext s
      match runTxFun exec applyPatch f s1 with
      | (.error e, s2) => (.error e, s2)
      | (.ok false, s2) => (.error "Command execution failed.", (popNestedContext s2).2)
      | (.ok true, s2) =>
        let (r, s3) := popNestedContext s2
        (.ok r, s3)
    | .cmd c1 => sendCommand c1 s
    | .patch p => sendPatch p s
  else
    sendCommand c s

/-- One unfolding of `execute(modelUri, command)`: reject with
`'Socket is closed.'` when the socket is not open, otherwise run `doExecute`
under `autoRollback`. -/
def executeStep {Cmd Op Model : Type} (env : Env Cmd Op Model)
    (exec : Cmd → TCState Cmd Op Model →
      Except String (ModelUpdateResult Op Model) × TCState Cmd Op Model)
    (c : Cmd) (s : TCState Cmd Op Model) :
    Except String (ModelUpdateResult Op Model) × TCState Cmd Op Model :=
  if s.socketOpen then autoRollback (doExecuteStep env exec c s)
  else (.error "Socket is closed.", s)

/-- Fuelled recursive executor: each provider expansion level consumes one
unit of fuel. -/
def execRec {Cmd Op Model : Type} (env : Env Cmd Op Model) :
    Nat → Cmd → TCState Cmd Op Model →
      Except String (ModelUpdateResult Op Model) × TCState Cmd Op Model
  | 0 => fun _ s => (.error "out of fuel", s)
  | fuel + 1 => executeStep env (execRec env fuel)

/-- `execute(modelUri, command)` with `fuel` levels of nested provider
expansion available below the outermost call. -/
def execute {Cmd Op Model : Type} (env : Env Cmd Op Model) (fuel : Nat)
    (c : Cmd) (s : TCState Cmd Op Model) :
    Except String (ModelUpdateResult Op Model) × TCState Cmd Op Model :=
  executeStep env (execRec env fuel) c s

/-- `doExecute(modelUri, command)` with `fuel` levels of nested provider
expansion available for the commands issued by transaction functions. -/
def doExecute {Cmd Op Model : Type} (env : Env Cmd Op Model) (fuel : Nat)
    (c : Cmd) (s : TCState Cmd Op Model) :
    Except String (ModelUpdateResult Op Model) × TCState Cmd Op Model :=
  doExecuteStep env (execRec env fuel) c s

/-- `hasTriggers(triggers)`: a transaction function always counts; a patch
counts when nonempty (a falsy registry result is the empty patch). -/
def hasTriggers {Cmd Op Model : Type} : Triggers Cmd Op Model → Bool
  | .txFun _ => true
  | .patch ops => ops.length > 0

/-- `performTriggers(triggers)`: push a nested context; run the transaction
function, or `applyPatch` for a patch; pop the context even on error
(`finally`), returning the popped aggregate on success and re-raising the
rejection otherwise. -/
def performTriggers {Cmd Op Model : Type} (env : Env Cmd Op Model) (execFuel : Nat)
    (t : Triggers Cmd Op Model) (s : TCState Cmd Op Model) :
    Except String (ModelUpdateResult Op Model) × TCState Cmd Op Model :=
  let s1 := pushNestedContext s
  match t with
  | .txFun f =>
    match runTxFun (execute env execFuel) applyPatch f s1 with
    | (.error e, s2) => (.error e, (popNestedContext s2).2)
    | (.ok _, s2) =>
      let (r, s3) := popNestedContext s2
      (.ok r, s3)
  | .patch ops =>
    match applyPatch (some ops) s1 with
    | (.error e, s2) => (.error e, (popNestedContext s2).2)
    | (.ok _, s2) =>
      let (r, s3) := popNestedContext s2
      (.ok r, s3)

/-- The `while (modelDelta && modelDelta.length)` loop of `commit`, with `u`
the aggregate popped from the root frame and `delta` the current
`modelDelta`.  When the delta is nil or empty, the `close` message is sent
and the aggregate returned.  Otherwise the triggers for the delta are
fetched under `autoRollback`; a falsy or empty trigger result clears the
delta; a real trigger result is performed, merged into the aggregate, and its
patch becomes the next delta.  `loopFuel` bounds the number of iterations
(the source imposes no bound). -/
def commitLoop {Cmd Op Model : Type} (env : Env Cmd Op Model) (execFuel : Nat) :
    Nat → ModelUpdateResult Op Model → Option (List Op) → TCState Cmd Op Model →
      Except String (ModelUpdateResult Op Model) × TCState Cmd Op Model
  | 0, _, _, s => (.error "out of fuel", s)
  | loopFuel + 1, u, delta, s =>
    match delta with
    | none => (.ok u, socketSend .close s)
    | some [] => (.ok u, socketSend .close s)
    | some d =>
      match env.getTriggers d with
      | .error e => (.error e, (rollback e s).2)
      | .ok t =>
        if hasTriggers t then
          match performTriggers env execFuel t s with
          | (.error e, s1) => (.error e, s1)
          | (.ok tr, s1) =>
            commitLoop env execFuel loopFuel (mergeModelUpdateResult u (some tr)) tr.patch s1
        else
          commitLoop env execFuel loopFuel u none s

/-- `commit()`: pop the root frame first; if the socket is not open return the
`transactionClosed` sentinel; otherwise run the trigger loop on the popped
aggregate (which ends by sending the `close` message and returning the
aggregate). -/
def commit {Cmd Op Model : Type} (env : Env Cmd Op Model)
    (loopFuel execFuel : Nat) (s : TCState Cmd Op Model) :
    Except String (ModelUpdateResult Op Model) × TCState Cmd Op Model :=
  let (u, s1) := popNestedContext s
  if s1.socketOpen then commitLoop env execFuel loopFuel u u.patch s1
  else (.ok transactionClosed, s1)

/-- A call a client can make on an open transaction context. -/
inductive ClientCall (Cmd Op : Type) where
  | callApplyPatch (p : Option (List Op))
  | callExecute (fuel : Nat) (c : Cmd)
  | callCommit (loopFuel execFuel : Nat)
  | callRollback (e : String)

/-- The state reached after one client call (the returned value is
discarded). -/
def applyCall {Cmd Op Model : Type} (env : Env Cmd Op Model) :
    ClientCall Cmd Op → TCState Cmd Op Model → TCState Cmd Op Model
  | .callApplyPatch p, s => (applyPatch p s).2
  | .callExecute fuel c, s => (execute env fuel c s).2
  | .callCommit loopFuel execFuel, s => (commit env loopFuel execFuel s).2
  | .callRollback e, s => (rollback e s).2

/-- Run a sequence of client calls. -/
def runCalls {Cmd Op Model : Type} (env : Env Cmd Op Model)
    (calls : List (ClientCall Cmd Op)) (s : TCState Cmd Op Model) : TCState Cmd Op Model :=
  calls.foldl (fun s c => applyCall env c s) s

/-- The state in which the resolved `open(closeCallback)` promise hands the
root context to its caller: `resolveTransaction(this)` runs only inside the
continuation of the uuid message, so the uuid has been received, the socket
is open, the root frame has been pushed, and nothing has been sent yet.
`replies` is the stream of upstream replies the environment will deliver.
This is not the only way the source hands out a context: the manager
registers the root in its map before `open` resolves, so a nested proxy can
be handed out earlier, from the state `awaitingUuidState` below. -/
def openState {Cmd Op Model : Type}
    (replies : List (Except String (ModelUpdateResult Op Model))) : TCState Cmd Op Model :=
  { frames := [initialAggregate]
    socketOpen := true
    uuidReceived := true
    sent := []
    replies := replies }

/-- The root context state during the awaiting-uuid window: `open()` pushed
the root frame synchronously, the socket's `onopen` handler has fired — so
`isOpen()` is already true — but the first textual message from Upstream,
the uuid, has not yet arrived and nothing has been sent.  Since
`openTransaction` of the manager stores the context in its `transactions`
map before `open` resolves, a second `openTransaction` on the same URI can
observe the context in this state. -/
def awaitingUuidState {Cmd Op Model : Type}
    (replies : List (Except String (ModelUpdateResult Op Model))) : TCState Cmd Op Model :=
  { frames := [initialAggregate]
    socketOpen := true
    uuidReceived := false
    sent := []
    replies := replies }

/-- `openTransaction()` on an already-open context: push a nested frame and
hand back a proxy that shares the socket and the frame stack.  The proxy's
`commit` is `popNestedContext` (no `close` is sent) and its other
operations, in particular `rollback`, delegate to this context. -/
def openNestedTransaction {Cmd Op Model : Type} (s : TCState Cmd Op Model) :
    TCState Cmd Op Model :=
  pushNestedContext s

/-- Outcome of `InternalModelServerClient.openTransaction`: delegation to an
existing root context (which yields a nested child transaction) or a freshly
registered root context. -/
inductive OpenOutcome where
  | nested (tc : Nat)
  | newRoot (tc : Nat)
deriving DecidableEq, Repr

/-- The manager's `transactions` map (normalized URI string to context,
contexts named by numeric ids) together with a supply of fresh ids. -/
structure MgrState where
  txmap : List (String × Nat)
  nextId : Nat

/-- `Map.get` on the transactions map. -/
def findTx (key : String) : List (String × Nat) → Option Nat
  | [] => none
  | (k, tc) :: rest => if k = key then some tc else findTx key rest

/-- `openTransaction(modelUri)` at the manager: the key is
`modelUri.normalize().toString()`; when a context is already registered for
the key, delegate to its `openTransaction()` (a nested child, no map change);
otherwise create a context, register it under the key and open it. -/
def mgrOpen (norm : String → String) (uri : String) (m : MgrState) :
    OpenOutcome × MgrState :=
  let key := norm uri
  match findTx key m.txmap with
  | some tc => (.nested tc, m)
  | none =>
    (.newRoot m.nextId, { txmap := (key, m.nextId) :: m.txmap, nextId := m.nextId + 1 })

/-- `closeTransaction(modeluri, tc)`, the close callback installed at open:
remove the entry for the URI only when the current mapping still equals the
closing context.  `normalize()` mutated the URI object in place inside
`openTransaction`, so the callback observes the normalized string. -/
def mgrClose (norm : String → String) (uri : String) (tc : Nat) (m : MgrState) :
    MgrState :=
  let key := norm uri
  if findTx key m.txmap = some tc then
    { m with txmap := m.txmap.filter (fun e => e.1 != key) }
  else
    m

/-- An event at the manager: a transaction is opened on a URI, or the close
callback of context `tc` fires for a URI. -/
inductive MgrEvent where
  | openTx (uri : String)
  | closeTx (uri : String) (tc : Nat)

/-- Apply one manager event. -/
def mgrStep (norm : String → String) : MgrEvent → MgrState → MgrState
  | .openTx u, m => (mgrOpen norm u m).2
  | .closeTx u tc, m => mgrClose norm u tc m

/-- Run a sequence of manager events from the empty map. -/
def mgrRun (norm : String → String) (events : List MgrEvent) : MgrState :=
  events.foldl (fun m e => mgrStep norm e m) { txmap := [], nextId := 0 }

/-- A sample environment with no providers and no triggers, used to
instantiate universally quantified theorems. -/
def sampleEnv : Env String Nat Nat where
  hasProvider := fun _ => false
  cmdType := fun c => c
  getCommands := fun _ => .patch []
  getTriggers := fun _ => .ok (.patch [])

/-- A sample context state whose socket is closed. -/
def sampleClosed : TCState String Nat Nat :=
  { frames := [initialAggregate]
    socketOpen := false
    uuidReceived := true
    sent := []
    replies := [] }

/-- A freshly opened sample context with the given pending replies. -/
def sampleOpen (replies : List (Except String (ModelUpdateResult Nat Nat))) :
    TCState String Nat Nat :=
  openState replies

/-- A sample root context still awaiting its uuid, with the given pending
replies. -/
def sampleAwaiting (replies : List (Except String (ModelUpdateResult Nat Nat))) :
    TCState String Nat Nat :=
  awaitingUuidState replies

end ModelserverNode

namespace ModelserverNode.Gateway

/-- The curated `STANDARD_ROUTES` set of server.ts. -/
def STANDARD_ROUTES : List String :=
  ["/models", "/modelelement", "/modeluris", "/server/ping", "/server/configure",
   "/subscribe", "/close", "/save", "/saveall", "/undo", "/redo", "/transaction",
   "/validation", "/validation/constraints", "/typeschema", "/uischema"]

/-- A character matched by the `[0-9.]` class of the route pattern. -/
def isVersionChar (c : Char) : Bool :=
  c.isDigit || c = '.'

/-- `isModelServerRoute(route)`: the route matches
`^\/api\/v[0-9.]+(\/.*)` and the captured group is a STANDARD_ROUTE.  The
character class cannot contain `/`, so a successful match takes the maximal
run of version characters after `/api/v`; the run must be nonempty and be
followed by `/`, and the remainder (from that `/`) must be in
`STANDARD_ROUTES`. -/
def isModelServerRoute (route : String) : Bool :=
  match route.data with
  | '/' :: 'a' :: 'p' :: 'i' :: '/' :: 'v' :: rest =>
    let ver := rest.takeWhile isVersionChar
    let tail := rest.dropWhile isVersionChar
    (!ver.isEmpty) &&
      (match tail with
       | '/' :: _ => STANDARD_ROUTES.contains (String.mk tail)
       | _ => false)
  | _ => false

/-- `handledRoute.replace(/\/+$/, '')`: strip every trailing slash. -/
def dropTrailingSlashes (s : String) : String :=
  String.mk ((s.data.reverse.dropWhile (fun c => c = '/')).reverse)

/-- A plug-in router as seen by `routes.install`: its mount route, the paths
of the layers on its stack (`layer?.route?.path ?? ''`, `none` for a layer
without a route), and its `forwardToUpstream` routing option (`none` when the
options omit it). -/
structure PluginRouter where
  route : String
  layerPaths : List (Option String)
  forwardToUpstream : Option Bool

/-- The backstop paths contributed by one router: nothing when
`forwardToUpstream` is truthy; otherwise the full layer paths with trailing
slashes stripped, keeping a path when the router explicitly set
`forwardToUpstream` (necessarily to `false`) or the path is not a standard
Model Server route. -/
def routerBackstops (r : PluginRouter) : List String :=
  if r.forwardToUpstream.getD false then []
  else
    let explicitlyBackstopped := r.forwardToUpstream.isSome
    ((r.layerPaths.map (fun lp => r.route ++ lp.getD "")).map dropTrailingSlashes).filter
      (fun handledRoute => explicitlyBackstopped || !isModelServerRoute handledRoute)

/-- `backstopPaths` after `routes.install()` ran over all plug-in routers. -/
def installBackstops (routers : List PluginRouter) : List String :=
  (routers.map routerBackstops).flatten

/-- `shouldBackstop(req)`: membership of the request path in the backstop
set. -/
def shouldBackstop (backstopPaths : List String) (path : String) : Bool :=
  backstopPaths.contains path

/-- What the forwarding handler does with a request. -/
inductive Dispatch where
  | wsHandOff
  | backstopped
  | forwarded
deriving DecidableEq, Repr

/-- The dispatch decision of `forward(upstream)`: a WebSocket upgrade request
is handed to the websocket middleware; a backstopped path is not forwarded;
every other request is forwarded to the Upstream Model Server. -/
def forwardDecision (backstopPaths : List String) (isUpgrade : Bool)
    (path : String) : Dispatch :=
  if isUpgrade then .wsHandOff
  else if shouldBackstop backstopPaths path then .backstopped
  else .forwarded

end ModelserverNode.Gateway

namespace ModelserverNode

/-- C2, counterexample: merging a failed reply that carries no patch leaves
the aggregate untouched, so the aggregate's success stays `true` although
`r1.success AND r2.success` is `false` — the claimed unconditional monoid
law fails on `mergeModelUpdateResult`, which only merges a source with a
nonempty patch. -/
theorem c2_merge_counterexample :
    (mergeModelUpdateResult ({ success := true, patch := some [] } : ModelUpdateResult Nat Nat)
        (some { success := false })).success = true ∧
    (({ success := true, patch := some [] } : ModelUpdateResult Nat Nat).success &&
      ({ success := false } : ModelUpdateResult Nat Nat).success) = false := by
  decide

/-- C2, amended: the merge monoid holds exactly for sources with a nonempty
patch — then success is the conjunction, the patch the ordered concatenation,
and `patchModel` is taken from the later result precisely when the updated
success holds and the later result carries one; a source whose patch is
absent or empty (in particular a patchless failed reply) leaves the aggregate
unchanged. -/
theorem c2_merge_amended {Op Model : Type} (r1 r2 : ModelUpdateResult Op Model) :
    (∀ p ps, r2.patch = some (p :: ps) →
      mergeModelUpdateResult r1 (some r2) =
        { success := r1.success && r2.success
          patch := some (r1.patch.getD [] ++ p :: ps)
          patchModel :=
            if (r1.success && r2.success) && r2.patchModel.isSome then r2.patchModel
            else r1.patchModel }) ∧
    ((r2.patch = none ∨ r2.patch = some []) →
      mergeModelUpdateResult r1 (some r2) = r1) := by
  obtain ⟨s2, pt2, pm2⟩ := r2
  constructor
  · intro p ps h
    simp only at h
    subst h
    rfl
  · rintro (h | h) <;> simp only at h <;> subst h <;> rfl

/-- C2, witness for the amended theorem at concrete inputs. -/
theorem c2_merge_amended_witness :
    (({ success := true, patch := some [7] } : ModelUpdateResult Nat Nat).patch =
        some [7] ∧
      mergeModelUpdateResult ({ success := true, patch := some [3] } : ModelUpdateResult Nat Nat)
          (some { success := true, patch := some [7] }) =
        { success := true, patch := some [3, 7], patchModel := none }) ∧
    (({ success := false } : ModelUpdateResult Nat Nat).patch = none ∧
      mergeModelUpdateResult ({ success := true, patch := some [3] } : ModelUpdateResult Nat Nat)
          (some { success := false }) =
        { success := true, patch := some [3] }) := by
  refine ⟨⟨rfl, ?_⟩, ⟨rfl, ?_⟩⟩
  · exact (c2_merge_amended { success := true, patch := some [3] }
      { success := true, patch := some [7] }).1 7 [] rfl
  · exact (c2_merge_amended { success := true, patch := some [3] }
      { success := false }).2 (Or.inl rfl)

/-- C6: with the socket closed, `execute` and `applyPatch` fail fast by
rejecting with `'Socket is closed.'` without any wire effect; `rollback`
never throws, always returns the `{success: false}` sentinel, and sends the
`roll-back` message exactly when the socket is still open. -/
theorem c6_socket_closed_fail_fast {Cmd Op Model : Type} (env : Env Cmd Op Model)
    (fuel : Nat) (c : Cmd) (p : Option (List Op)) (e : String)
    (s : TCState Cmd Op Model) :
    (s.socketOpen = false → execute env fuel c s = (.error "Socket is closed.", s)) ∧
    (s.socketOpen = false → applyPatch p s = (.error "Socket is closed.", s)) ∧
    (rollback e s).1 = transactionClosed ∧
    (s.socketOpen = true → (rollback e s).2 = socketSend .rollBack s) ∧
    (s.socketOpen = false → (rollback e s).2 = s) := by
  refine ⟨fun h => ?_, fun h => ?_, rfl, fun h => ?_, fun h => ?_⟩
  · simp [execute, executeStep, h]
  · simp [applyPatch, h]
  · simp [rollback, h]
  · simp [rollback, h]

/-- C6, witness: the fail-fast behaviour on a concrete closed context and the
rollback behaviour on a concrete open context. -/
theorem c6_socket_closed_fail_fast_witness :
    (sampleClosed.socketOpen = false ∧
      execute sampleEnv 1 "cmd" sampleClosed = (.error "Socket is closed.", sampleClosed) ∧
      applyPatch (some [1]) sampleClosed = (.error "Socket is closed.", sampleClosed) ∧
      (rollback "err" sampleClosed).2 = sampleClosed) ∧
    ((sampleOpen []).socketOpen = true ∧
      (rollback "err" (sampleOpen [])).2 =
        socketSend .rollBack (openState [])) := by
  refine ⟨⟨rfl, ?_, ?_, ?_⟩, rfl, ?_⟩
  · exact (c6_socket_closed_fail_fast sampleEnv 1 "cmd" (some [1]) "err" sampleClosed).1 rfl
  · exact (c6_socket_closed_fail_fast sampleEnv 1 "cmd" (some [1]) "err"
      sampleClosed).2.1 rfl
  · exact (c6_socket_closed_fail_fast sampleEnv 1 "cmd" (some [1]) "err"
      sampleClosed).2.2.2.2 rfl
  · exact (c6_socket_closed_fail_fast sampleEnv 1 "cmd" (some [1]) "err"
      (openState [])).2.2.2.1 rfl

/-- C7, counterexample: on a context whose socket is closed, `applyPatch`
with a nil patch rejects with `'Socket is closed.'` instead of returning the
`{success: false}` sentinel — the socket check precedes the empty-patch
check, so the claim does not hold for every empty or nil argument. -/
theorem c7_empty_patch_counterexample :
    (applyPatch none sampleClosed).1 = .error "Socket is closed." ∧
    (applyPatch none sampleClosed).1 ≠
      .ok ({ success := false } : ModelUpdateResult Nat Nat) := by
  refine ⟨rfl, fun h => ?_⟩
  rw [show (applyPatch none sampleClosed).1 = .error "Socket is closed." from rfl] at h
  exact Except.noConfusion h

/-- C7, amended: on a context whose socket is open, a nil or empty patch
makes `applyPatch` return `{success: false}` with the state unchanged — so
nothing is sent on the wire and nothing is thrown or rejected; with the
socket closed `applyPatch` instead rejects with `'Socket is closed.'`. -/
theorem c7_empty_patch_no_wire {Cmd Op Model : Type} (p : Option (List Op))
    (s : TCState Cmd Op Model) :
    (s.socketOpen = true → p = none ∨ p = some [] →
      applyPatch p s = (.ok { success := false }, s)) ∧
    (s.socketOpen = false → applyPatch p s = (.error "Socket is closed.", s)) := by
  constructor
  · rintro h (rfl | rfl) <;> simp [applyPatch, h]
  · intro h
    simp [applyPatch, h]

/-- C7, witness: the empty and nil cases on a concrete open context. -/
theorem c7_empty_patch_no_wire_witness :
    (sampleOpen []).socketOpen = true ∧
    applyPatch none (sampleOpen []) =
      (.ok { success := false }, openState []) ∧
    applyPatch (some []) (sampleOpen []) =
      (.ok { success := false }, openState []) := by
  refine ⟨rfl, ?_, ?_⟩
  · exact (c7_empty_patch_no_wire none (openState [])).1 rfl (Or.inl rfl)
  · exact (c7_empty_patch_no_wire (some []) (openState [])).1 rfl (Or.inr rfl)

end ModelserverNode

namespace ModelserverNode

/-- Environment for the C3 counterexample: the provider for command type
`T1` is a transaction function that applies patch `[5]` and then reports
failure. -/
def c3Env : Env String Nat Nat where
  hasProvider := fun t => t = "T1"
  cmdType := fun c => c
  getCommands := fun _ => .txFun (.editPatch (some [5]) (fun _ => .done false))
  getTriggers := fun _ => .ok (.patch [])

/-- Start state for the C3 counterexample: a freshly opened root context
whose upstream will reply to the patch with a successful update echoing
`[5]`. -/
def c3Start : TCState String Nat Nat :=
  openState [.ok { success := true, patch := some [5] }]

/-- C3, counterexample: when the provided transaction function returns
`false`, the call does reject with `'Command execution failed.'`, but the
popped frame's aggregated result is NOT discarded: `popNestedContext` merges
it into the parent frame, so the root frame — which started as
`{success: true, patch: []}` — ends up carrying the failed child's patch
`[5]`.  This refutes the claimed "discarded (not merged into the parent
frame)". -/
theorem c3_failed_fn_counterexample :
    (doExecute c3Env 1 "T1" c3Start).1 = .error "Command execution failed." ∧
    (doExecute c3Env 1 "T1" c3Start).2.frames =
      [{ success := true, patch := some [5] }] :=
  ⟨rfl, rfl⟩

/-- C3, amended: `doExecute` dispatch.  Without a provider the command is
sent as an execute message (whose reply is returned).  A provided transaction
function runs on a freshly pushed frame; if it returns `false` the frame is
popped — merging its aggregate into the parent frame, as `popNestedContext`
always does — the popped aggregate is discarded from the return value, and
the call rejects with `'Command execution failed.'`; if it returns `true` the
frame is popped, merged into the parent frame, and the popped aggregate
returned.  A substitute command or patch is sent without recursion. -/
theorem c3_doExecute_dispatch {Cmd Op Model : Type} (env : Env Cmd Op Model)
    (fuel : Nat) (c : Cmd) (s : TCState Cmd Op Model) :
    (env.hasProvider (env.cmdType c) = false →
      doExecute env fuel c s = sendCommand c s) ∧
    (∀ r rest, s.socketOpen = true → s.replies = .ok r :: rest →
      (sendCommand c s).1 = .ok r ∧
      (sendCommand c s).2.sent = s.sent ++ [(.execute (.cmd c), true)]) ∧
    (∀ f, env.hasProvider (env.cmdType c) = true → env.getCommands c = .txFun f →
      (∀ s1, runTxFun (execRec env fuel) applyPatch f (pushNestedContext s) =
          (.ok false, s1) →
        doExecute env fuel c s =
          (.error "Command execution failed.", (popNestedContext s1).2)) ∧
      (∀ s1, runTxFun (execRec env fuel) applyPatch f (pushNestedContext s) =
          (.ok true, s1) →
        doExecute env fuel c s = (.ok (popNestedContext s1).1, (popNestedContext s1).2))) ∧
    (∀ c1, env.hasProvider (env.cmdType c) = true → env.getCommands c = .cmd c1 →
      doExecute env fuel c s = sendCommand c1 s) ∧
    (∀ p, env.hasProvider (env.cmdType c) = true → env.getCommands c = .patch p →
      doExecute env fuel c s = sendPatch p s) := by
  refine ⟨fun h => ?_, fun r rest hopen hrep => ?_, fun f h hf => ⟨fun s1 hrun => ?_,
    fun s1 hrun => ?_⟩, fun c1 h hc => ?_, fun p h hp => ?_⟩
  · simp [doExecute, doExecuteStep, h]
  · constructor <;>
      simp [sendCommand, sendExecuteMessage, hopen, hrep, socketSend] <;>
      cases hfr : s.frames <;> simp
  · simp [doExecute, doExecuteStep, h, hf, hrun]
  · simp only [doExecute, doExecuteStep, h, hf, hrun, if_true]
  · simp [doExecute, doExecuteStep, h, hc]
  · simp [doExecute, doExecuteStep, h, hp]

/-- C3, witness for the amended theorem: the no-provider branch on a concrete
open context with a concrete upstream reply. -/
theorem c3_doExecute_dispatch_witness :
    (sampleEnv.hasProvider (sampleEnv.cmdType "c") = false ∧
      doExecute sampleEnv 1 "c" (openState [.ok { success := true, patch := some [9] }]) =
        sendCommand "c" (openState [.ok { success := true, patch := some [9] }])) ∧
    ((sampleOpen
        [.ok { success := true, patch := some [9] }]).socketOpen = true ∧
      (sendCommand "c" (openState [.ok { success := true, patch := some [9] }])).1 =
        .ok ({ success := true, patch := some [9] } : ModelUpdateResult Nat Nat)) := by
  refine ⟨⟨rfl, ?_⟩, rfl, ?_⟩
  · exact (c3_doExecute_dispatch sampleEnv 1 "c"
      (openState [.ok { success := true, patch := some [9] }])).1 rfl
  · exact ((c3_doExecute_dispatch sampleEnv 1 "c"
      (openState [.ok { success := true, patch := some [9] }])).2.1
      { success := true, patch := some [9] } [] rfl rfl).1

/-- Environment for the C4 counterexample: the provider for command type
`T1` is a transaction function that applies patch `[5]` and then reports
success. -/
def c4Env : Env String Nat Nat where
  hasProvider := fun t => t = "T1"
  cmdType := fun c => c
  getCommands := fun _ => .txFun (.editPatch (some [5]) (fun _ => .done true))
  getTriggers := fun _ => .ok (.patch [])

/-- Start state for the C4 counterexample: a freshly opened root context
whose upstream reply promise for the first execute message rejects. -/
def c4Start : TCState String Nat Nat :=
  openState [.error "boom"]

/-- C4, counterexample: a failing `applyPatch` nested inside a provider
transaction function is wrapped by two `autoRollback` layers (its own and the
one of the outer `execute`).  Each layer calls `rollback` while the socket is
still open — sending `roll-back` does not close the local socket — so TWO
`roll-back` messages are sent for a single rejection, refuting the claimed
"at most one roll-back message".  No `close` is sent. -/
theorem c4_double_rollback_counterexample :
    ((execute c4Env 1 "T1" c4Start).2.sent.filter (fun x => x.1.isRollBack)).length = 2 ∧
    ((execute c4Env 1 "T1" c4Start).2.sent.filter (fun x => x.1.isClose)).length = 0 :=
  ⟨rfl, rfl⟩

/-- C4, amended: each `autoRollback` wrapper sends at most one `roll-back`
per rejection, and a failing call sends no `close`: a non-nested `applyPatch`
whose reply promise rejects while the socket is open sends exactly the
`execute` message followed by one `roll-back` and re-raises the reason; but a
failure nested under several wrappers repeats the `roll-back` once per
wrapper while the socket remains open (two in the counterexample). -/
theorem c4_single_layer_rollback {Cmd Op Model : Type} (p : Op) (ps : List Op)
    (e : String) (rest : List (Except String (ModelUpdateResult Op Model)))
    (s : TCState Cmd Op Model) :
    s.socketOpen = true → s.replies = .error e :: rest →
    (applyPatch (some (p :: ps)) s).1 = .error e ∧
    (applyPatch (some (p :: ps)) s).2.sent =
      s.sent ++ [(.execute (.patch (p :: ps)), true), (.rollBack, true)] ∧
    ((applyPatch (some (p :: ps)) s).2.sent.filter (fun x => x.1.isRollBack)).length =
      (s.sent.filter (fun x => x.1.isRollBack)).length + 1 ∧
    ((applyPatch (some (p :: ps)) s).2.sent.filter (fun x => x.1.isClose)).length =
      (s.sent.filter (fun x => x.1.isClose)).length := by
  intro hopen hrep
  have hstate : applyPatch (some (p :: ps)) s =
      (.error e, { s with
        uuidReceived := true
        sent := s.sent ++ [(.execute (.patch (p :: ps)), true), (.rollBack, true)]
        replies := rest }) := by
    simp [applyPatch, hopen, autoRollback, sendPatch, sendExecuteMessage, hrep,
      socketSend, rollback]
  refine ⟨by rw [hstate], by rw [hstate], ?_, ?_⟩ <;> rw [hstate] <;>
    simp [List.filter_append, TxMsg.isRollBack, TxMsg.isClose]

/-- C4, witness for the amended theorem at a concrete open context. -/
theorem c4_single_layer_rollback_witness :
    (sampleOpen [.error "x"]).socketOpen = true ∧
    (sampleOpen [.error "x"]).replies =
      .error "x" :: [] ∧
    (applyPatch (some [1]) (sampleOpen
      [.error "x"])).1 = .error "x" := by
  refine ⟨rfl, rfl, ?_⟩
  exact (c4_single_layer_rollback 1 [] "x" [] (openState [.error "x"]) rfl rfl).1

end ModelserverNode

namespace ModelserverNode

/-- Popping a nested context never changes the socket state. -/
theorem popNestedContext_socketOpen {Cmd Op Model : Type} (s : TCState Cmd Op Model) :
    (popNestedContext s).2.socketOpen = s.socketOpen := by
  cases hs : s.frames with
  | nil => simp [popNestedContext, hs]
  | cons top rest => cases rest <;> simp [popNestedContext, hs]

/-- C1: `commit` pops the root frame first and, when the socket is not open,
returns the `{success: false}` sentinel.  Otherwise the trigger loop feeds
the current delta to the trigger registry until the delta or the triggers
are empty, performing each round of triggers in a fresh frame, merging the
trigger result into the aggregate and continuing with its patch; then
exactly one `close` message is sent and the aggregate returned.  In
particular, for a root frame holding patch `p1`, a trigger registry that
answers `p1` with patch `p2` and anything else with no triggers, and an
upstream that echoes `p2`, commit returns success with patch `p1 ++ p2` and
the wire sees exactly one execute for `p2` followed by one `close`. -/
theorem c1_commit_trigger_loop {Cmd Op Model : Type} [DecidableEq Op]
    (env0 : Env Cmd Op Model) (lf ef : Nat) (s : TCState Cmd Op Model)
    (hp : String → Bool) (ct : Cmd → String) (gc : Cmd → Provided Cmd Op Model)
    (p1 p2 : List Op) (h1 : p1 ≠ []) (h2 : p2 ≠ []) (h3 : p2 ≠ p1) :
    (s.socketOpen = false →
      commit env0 lf ef s = (.ok transactionClosed, (popNestedContext s).2)) ∧
    commit
        { hasProvider := hp, cmdType := ct, getCommands := gc
          getTriggers := fun d => .ok (.patch (if d = p1 then p2 else [])) }
        3 ef
        { frames := [{ success := true, patch := some p1 }]
          socketOpen := true
          uuidReceived := true
          sent := []
          replies := [.ok { success := true, patch := some p2 }] } =
      (.ok { success := true, patch := some (p1 ++ p2) },
        { frames := []
          socketOpen := true
          uuidReceived := true
          sent := [(.execute (.patch p2), true), (.close, true)]
          replies := [] }) := by
  constructor
  · intro h
    rcases hpop : popNestedContext s with ⟨u, s1⟩
    have hs1 : s1.socketOpen = false := by
      rw [show s1 = (popNestedContext s).2 from (congrArg Prod.snd hpop).symm,
        popNestedContext_socketOpen, h]
    simp [commit, hpop, hs1]
  · obtain ⟨a, as, rfl⟩ := List.exists_cons_of_ne_nil h1
    obtain ⟨b, bs, rfl⟩ := List.exists_cons_of_ne_nil h2
    simp [commit, popNestedContext, commitLoop, performTriggers, applyPatch,
      sendPatch, sendExecuteMessage, socketSend, pushNestedContext, autoRollback,
      mergeModelUpdateResult, hasTriggers, initialAggregate, h3]

/-- C1, witness: the closed-socket case on a concrete closed context, and the
`p1 = [0]`, `p2 = [1]` trigger round trip. -/
theorem c1_commit_trigger_loop_witness :
    (sampleClosed.socketOpen = false ∧
      commit sampleEnv 1 1 sampleClosed =
        (.ok transactionClosed, (popNestedContext sampleClosed).2)) ∧
    (([0] : List Nat) ≠ [] ∧ ([1] : List Nat) ≠ [] ∧ ([1] : List Nat) ≠ [0]) ∧
    commit
        { hasProvider := fun _ => false, cmdType := fun c : String => c
          getCommands := fun _ => .patch []
          getTriggers := fun d => .ok (.patch (if d = [0] then [1] else [])) }
        3 1
        { frames := [{ success := true, patch := some [0] }]
          socketOpen := true
          uuidReceived := true
          sent := []
          replies := [.ok ({ success := true, patch := some [1] } :
            ModelUpdateResult Nat Nat)] } =
      (.ok { success := true, patch := some [0, 1] },
        { frames := []
          socketOpen := true
          uuidReceived := true
          sent := [(.execute (.patch [1]), true), (.close, true)]
          replies := [] }) := by
  refine ⟨⟨rfl, ?_⟩, ⟨by decide, by decide, by decide⟩, ?_⟩
  · exact (c1_commit_trigger_loop sampleEnv 1 1 sampleClosed (fun _ => false)
      (fun c => c) (fun _ => .patch []) [0] [1] (by decide) (by decide) (by decide)).1 rfl
  · exact (c1_commit_trigger_loop sampleEnv 3 1 sampleClosed (fun _ => false)
      (fun c => c) (fun _ => .patch []) [0] [1] (by decide) (by decide) (by decide)).2

end ModelserverNode

namespace ModelserverNode

/-- Trace invariant for C9: the uuid has been received, and every message so
far was sent after the uuid had been received. -/
def sentAfterUUID {Cmd Op Model : Type} (s : TCState Cmd Op Model) : Prop :=
  s.uuidReceived = true ∧ ∀ x ∈ s.sent, x.2 = true

/-- Popping a nested context leaves the wire trace unchanged. -/
theorem popNestedContext_sent {Cmd Op Model : Type} (s : TCState Cmd Op Model) :
    (popNestedContext s).2.sent = s.sent := by
  cases hs : s.frames with
  | nil => simp [popNestedContext, hs]
  | cons top rest => cases rest <;> simp [popNestedContext, hs]

/-- Popping a nested context leaves the uuid flag unchanged. -/
theorem popNestedContext_uuid {Cmd Op Model : Type} (s : TCState Cmd Op Model) :
    (popNestedContext s).2.uuidReceived = s.uuidReceived := by
  cases hs : s.frames with
  | nil => simp [popNestedContext, hs]
  | cons top rest => cases rest <;> simp [popNestedContext, hs]

/-- `socket.send` preserves the C9 trace invariant. -/
theorem socketSend_sentAfterUUID {Cmd Op Model : Type} (m : TxMsg Cmd Op)
    (s : TCState Cmd Op Model) (h : sentAfterUUID s) : sentAfterUUID (socketSend m s) := by
  obtain ⟨h1, h2⟩ := h
  refine ⟨h1, fun x hx => ?_⟩
  simp [socketSend] at hx
  rcases hx with hx | hx
  · exact h2 x hx
  · simp [hx, h1]

/-- `popNestedContext` preserves the C9 trace invariant. -/
theorem popNestedContext_sentAfterUUID {Cmd Op Model : Type}
    (s : TCState Cmd Op Model) (h : sentAfterUUID s) :
    sentAfterUUID (popNestedContext s).2 :=
  ⟨(popNestedContext_uuid s).trans h.1, by rw [popNestedContext_sent]; exact h.2⟩

/-- `rollback` preserves the C9 trace invariant. -/
theorem rollback_sentAfterUUID {Cmd Op Model : Type} (e : String)
    (s : TCState Cmd Op Model) (h : sentAfterUUID s) : sentAfterUUID (rollback e s).2 := by
  unfold rollback
  by_cases hso : s.socketOpen = true <;> simp [hso]
  · exact socketSend_sentAfterUUID _ _ h
  · exact h

/-- `autoRollback` preserves the C9 trace invariant. -/
theorem autoRollback_sentAfterUUID {Cmd Op Model α : Type}
    (r : Except String α × TCState Cmd Op Model) (h : sentAfterUUID r.2) :
    sentAfterUUID (autoRollback r).2 := by
  rcases r with ⟨res, s⟩
  cases res with
  | ok a => exact h
  | error e => exact rollback_sentAfterUUID e s h

/-- `sendExecuteMessage` either leaves the trace and uuid flag unchanged (the
closed-socket rejection) or records the execute message with the uuid
received. -/
theorem sendExecuteMessage_shape {Cmd Op Model : Type} (body : ExecuteBody Cmd Op)
    (s : TCState Cmd Op Model) :
    ((sendExecuteMessage body s).2.uuidReceived = s.uuidReceived ∧
      (sendExecuteMessage body s).2.sent = s.sent) ∨
    ((sendExecuteMessage body s).2.uuidReceived = true ∧
      (sendExecuteMessage body s).2.sent = s.sent ++ [(.execute body, true)]) := by
  unfold sendExecuteMessage
  by_cases hso : s.socketOpen = true
  · simp only [hso, if_true]
    cases hrep : s.replies with
    | nil => right; simp [socketSend, hrep]
    | cons rep rest =>
      cases rep with
      | error e => right; simp [socketSend, hrep]
      | ok r =>
        cases hfr : s.frames with
        | nil => right; simp [socketSend, hrep, hfr]
        | cons top t => right; simp [socketSend, hrep, hfr]
  · simp [hso]

/-- `sendExecuteMessage` preserves the C9 trace invariant. -/
theorem sendExecuteMessage_sentAfterUUID {Cmd Op Model : Type} (body : ExecuteBody Cmd Op)
    (s : TCState Cmd Op Model) (h : sentAfterUUID s) :
    sentAfterUUID (sendExecuteMessage body s).2 := by
  obtain ⟨h1, h2⟩ := h
  rcases sendExecuteMessage_shape body s with ⟨hu, hs⟩ | ⟨hu, hs⟩
  · exact ⟨hu.trans h1, by rw [hs]; exact h2⟩
  · refine ⟨hu, fun x hx => ?_⟩
    rw [hs] at hx
    simp at hx
    rcases hx with hx | hx
    · exact h2 x hx
    · simp [hx]

/-- `applyPatch` preserves the C9 trace invariant. -/
theorem applyPatch_sentAfterUUID {Cmd Op Model : Type} (p : Option (List Op))
    (s : TCState Cmd Op Model) (h : sentAfterUUID s) :
    sentAfterUUID (applyPatch p s).2 := by
  unfold applyPatch
  by_cases hso : s.socketOpen = true <;> simp [hso]
  · rcases p with _ | (_ | ⟨q, qs⟩)
    · exact h
    · exact h
    · exact autoRollback_sentAfterUUID _ (sendExecuteMessage_sentAfterUUID _ _ h)
  · exact h

/-- Running a transaction function preserves the C9 trace invariant provided
its executor and patch applier do. -/
theorem runTxFun_sentAfterUUID {Cmd Op Model : Type}
    (exec : Cmd → TCState Cmd Op Model →
      Except String (ModelUpdateResult Op Model) × TCState Cmd Op Model)
    (applyP : Option (List Op) → TCState Cmd Op Model →
      Except String (ModelUpdateResult Op Model) × TCState Cmd Op Model)
    (hexec : ∀ c s, sentAfterUUID s → sentAfterUUID (exec c s).2)
    (happ : ∀ p s, sentAfterUUID s → sentAfterUUID (applyP p s).2)
    (f : TxFun Cmd Op Model) :
    ∀ s, sentAfterUUID s → sentAfterUUID (runTxFun exec applyP f s).2 := by
  induction f with
  | done b => intro s h; exact h
  | editPatch p k ih =>
    intro s h
    unfold runTxFun
    rcases hres : applyP p s with ⟨res, s1⟩
    have h1 : sentAfterUUID s1 := by have := happ p s h; rwa [hres] at this
    cases res with
    | error e => simpa [hres] using h1
    | ok r => simpa [hres] using ih r s1 h1
  | editCmd c k ih =>
    intro s h
    unfold runTxFun
    rcases hres : exec c s with ⟨res, s1⟩
    have h1 : sentAfterUUID s1 := by have := hexec c s h; rwa [hres] at this
    cases res with
    | error e => simpa [hres] using h1
    | ok r => simpa [hres] using ih r s1 h1

/-- One `doExecute` unfolding preserves the C9 trace invariant. -/
theorem doExecuteStep_sentAfterUUID {Cmd Op Model : Type} (env : Env Cmd Op Model)
    (exec : Cmd → TCState Cmd Op Model →
      Except String (ModelUpdateResult Op Model) × TCState Cmd Op Model)
    (hexec : ∀ c s, sentAfterUUID s → sentAfterUUID (exec c s).2)
    (c : Cmd) (s : TCState Cmd Op Model) (h : sentAfterUUID s) :
    sentAfterUUID (doExecuteStep env exec c s).2 := by
  unfold doExecuteStep
  by_cases hp : env.hasProvider (env.cmdType c) = true <;> simp [hp]
  · cases hgc : env.getCommands c with
    | txFun f =>
      have hpush : sentAfterUUID (pushNestedContext s) := h
      rcases hrun : runTxFun exec applyPatch f (pushNestedContext s) with ⟨res, s1⟩
      have h1 : sentAfterUUID s1 := by
        have := runTxFun_sentAfterUUID exec applyPatch hexec
          (fun p s hh => applyPatch_sentAfterUUID p s hh) f (pushNestedContext s) hpush
        rwa [hrun] at this
      cases res with
      | error e => simpa [hrun] using h1
      | ok b =>
        cases b
        · simpa [hrun] using popNestedContext_sentAfterUUID s1 h1
        · simpa [hrun] using popNestedContext_sentAfterUUID s1 h1
    | cmd c1 =>
      simpa [hgc, sendCommand] using sendExecuteMessage_sentAfterUUID _ _ h
    | patch p =>
      simpa [hgc, sendPatch] using sendExecuteMessage_sentAfterUUID _ _ h
  · exact sendExecuteMessage_sentAfterUUID _ _ h

/-- The fuelled executor preserves the C9 trace invariant. -/
theorem execRec_sentAfterUUID {Cmd Op Model : Type} (env : Env Cmd Op Model) :
    ∀ (fuel : Nat) (c : Cmd) (s : TCState Cmd Op Model), sentAfterUUID s →
      sentAfterUUID (execRec env fuel c s).2 := by
  intro fuel
  induction fuel with
  | zero => intro c s h; exact h
  | succ n ih =>
    intro c s h
    show sentAfterUUID (executeStep env (execRec env n) c s).2
    unfold executeStep
    by_cases hso : s.socketOpen = true <;> simp [hso]
    · exact autoRollback_sentAfterUUID _
        (doExecuteStep_sentAfterUUID env (execRec env n) (fun c s hh => ih c s hh) c s h)
    · exact h

/-- `execute` preserves the C9 trace invariant. -/
theorem execute_sentAfterUUID {Cmd Op Model : Type} (env : Env Cmd Op Model)
    (fuel : Nat) (c : Cmd) (s : TCState Cmd Op Model) (h : sentAfterUUID s) :
    sentAfterUUID (execute env fuel c s).2 := by
  unfold execute executeStep
  by_cases hso : s.socketOpen = true <;> simp [hso]
  · exact autoRollback_sentAfterUUID _
      (doExecuteStep_sentAfterUUID env (execRec env fuel)
        (fun c s hh => execRec_sentAfterUUID env fuel c s hh) c s h)
  · exact h

/-- `performTriggers` preserves the C9 trace invariant. -/
theorem performTriggers_sentAfterUUID {Cmd Op Model : Type} (env : Env Cmd Op Model)
    (execFuel : Nat) (t : Triggers Cmd Op Model) (s : TCState Cmd Op Model)
    (h : sentAfterUUID s) : sentAfterUUID (performTriggers env execFuel t s).2 := by
  unfold performTriggers
  have hpush : sentAfterUUID (pushNestedContext s) := h
  cases t with
  | txFun f =>
    rcases hrun : runTxFun (execute env execFuel) applyPatch f (pushNestedContext s)
      with ⟨res, s1⟩
    have h1 : sentAfterUUID s1 := by
      have := runTxFun_sentAfterUUID (execute env execFuel) applyPatch
        (fun c s hh => execute_sentAfterUUID env execFuel c s hh)
        (fun p s hh => applyPatch_sentAfterUUID p s hh) f (pushNestedContext s) hpush
      rwa [hrun] at this
    cases res with
    | error e => simpa [hrun] using popNestedContext_sentAfterUUID s1 h1
    | ok b => simpa [hrun] using popNestedContext_sentAfterUUID s1 h1
  | patch ops =>
    rcases hap : applyPatch (some ops) (pushNestedContext s) with ⟨res, s1⟩
    have h1 : sentAfterUUID s1 := by
      have := applyPatch_sentAfterUUID (some ops) (pushNestedContext s) hpush
      rwa [hap] at this
    cases res with
    | error e => simpa [hap] using popNestedContext_sentAfterUUID s1 h1
    | ok r => simpa [hap] using popNestedContext_sentAfterUUID s1 h1

/-- The commit trigger loop preserves the C9 trace invariant. -/
theorem commitLoop_sentAfterUUID {Cmd Op Model : Type} (env : Env Cmd Op Model)
    (execFuel : Nat) :
    ∀ (loopFuel : Nat) (u : ModelUpdateResult Op Model) (delta : Option (List Op))
      (s : TCState Cmd Op Model), sentAfterUUID s →
      sentAfterUUID (commitLoop env execFuel loopFuel u delta s).2 := by
  intro loopFuel
  induction loopFuel with
  | zero => intro u delta s h; exact h
  | succ n ih =>
    intro u delta s h
    rcases delta with _ | (_ | ⟨d, ds⟩)
    · exact socketSend_sentAfterUUID _ _ h
    · exact socketSend_sentAfterUUID _ _ h
    · show sentAfterUUID (commitLoop env execFuel (n + 1) u (some (d :: ds)) s).2
      unfold commitLoop
      cases hgt : env.getTriggers (d :: ds) with
      | error e => simpa [hgt] using rollback_sentAfterUUID e s h
      | ok t =>
        by_cases ht : hasTriggers t = true <;> simp [hgt, ht]
        · rcases hpt : performTriggers env execFuel t s with ⟨res, s1⟩
          have h1 : sentAfterUUID s1 := by
            have := performTriggers_sentAfterUUID env execFuel t s h
            rwa [hpt] at this
          cases res with
          | error e => exact h1
          | ok tr => exact ih _ _ s1 h1
        · exact ih u none s h

/-- `commit` preserves the C9 trace invariant. -/
theorem commit_sentAfterUUID {Cmd Op Model : Type} (env : Env Cmd Op Model)
    (loopFuel execFuel : Nat) (s : TCState Cmd Op Model) (h : sentAfterUUID s) :
    sentAfterUUID (commit env loopFuel execFuel s).2 := by
  unfold commit
  rcases hpop : popNestedContext s with ⟨u, s1⟩
  have h1 : sentAfterUUID s1 := by
    have := popNestedContext_sentAfterUUID s h
    rwa [hpop] at this
  by_cases hso : s1.socketOpen = true <;> simp [hpop, hso]
  · exact commitLoop_sentAfterUUID env execFuel loopFuel u u.patch s1 h1
  · exact h1

/-- Every client call preserves the C9 trace invariant. -/
theorem applyCall_sentAfterUUID {Cmd Op Model : Type} (env : Env Cmd Op Model)
    (call : ClientCall Cmd Op) (s : TCState Cmd Op Model) (h : sentAfterUUID s) :
    sentAfterUUID (applyCall env call s) := by
  cases call with
  | callApplyPatch p => exact applyPatch_sentAfterUUID p s h
  | callExecute fuel c => exact execute_sentAfterUUID env fuel c s h
  | callCommit lf ef => exact commit_sentAfterUUID env lf ef s h
  | callRollback e => exact rollback_sentAfterUUID e s h

/-- Sequences of client calls preserve the C9 trace invariant. -/
theorem runCalls_sentAfterUUID {Cmd Op Model : Type} (env : Env Cmd Op Model) :
    ∀ (calls : List (ClientCall Cmd Op)) (s : TCState Cmd Op Model), sentAfterUUID s →
      sentAfterUUID (runCalls env calls s) := by
  intro calls
  induction calls with
  | nil => intro s h; exact h
  | cons call rest ih =>
    intro s h
    exact ih (applyCall env call s) (applyCall_sentAfterUUID env call s h)

/-- Trace invariant for the amended C9: every `execute` message so far was
sent after the uuid had been received (`close` and `roll-back` are not
constrained, since `rollback` does not await the uuid). -/
def execSentAfterUUID {Cmd Op Model : Type} (s : TCState Cmd Op Model) : Prop :=
  ∀ x ∈ s.sent, x.1.isExecuteMsg = true → x.2 = true

/-- Sending a non-execute message preserves the execute-message invariant. -/
theorem socketSend_execSent {Cmd Op Model : Type} (m : TxMsg Cmd Op)
    (s : TCState Cmd Op Model) (hm : m.isExecuteMsg = false)
    (h : execSentAfterUUID s) : execSentAfterUUID (socketSend m s) := by
  intro x hx hxe
  simp [socketSend] at hx
  rcases hx with hx | hx
  · exact h x hx hxe
  · subst hx
    exact absurd hxe (by simp [hm])

/-- `popNestedContext` preserves the execute-message invariant. -/
theorem popNestedContext_execSent {Cmd Op Model : Type} (s : TCState Cmd Op Model)
    (h : execSentAfterUUID s) : execSentAfterUUID (popNestedContext s).2 := by
  intro x hx hxe
  rw [popNestedContext_sent] at hx
  exact h x hx hxe

/-- `rollback` preserves the execute-message invariant (it sends only a
`roll-back`). -/
theorem rollback_execSent {Cmd Op Model : Type} (e : String) (s : TCState Cmd Op Model)
    (h : execSentAfterUUID s) : execSentAfterUUID (rollback e s).2 := by
  unfold rollback
  by_cases hso : s.socketOpen = true <;> simp [hso]
  · exact socketSend_execSent _ _ rfl h
  · exact h

/-- `autoRollback` preserves the execute-message invariant. -/
theorem autoRollback_execSent {Cmd Op Model α : Type}
    (r : Except String α × TCState Cmd Op Model) (h : execSentAfterUUID r.2) :
    execSentAfterUUID (autoRollback r).2 := by
  rcases r with ⟨res, s⟩
  cases res with
  | ok a => exact h
  | error e => exact rollback_execSent e s h

/-- `sendExecuteMessage` preserves the execute-message invariant from any
state: it awaits the uuid before sending, so the execute message it appends
always carries the uuid-received flag. -/
theorem sendExecuteMessage_execSent {Cmd Op Model : Type} (body : ExecuteBody Cmd Op)
    (s : TCState Cmd Op Model) (h : execSentAfterUUID s) :
    execSentAfterUUID (sendExecuteMessage body s).2 := by
  rcases sendExecuteMessage_shape body s with ⟨-, hs⟩ | ⟨-, hs⟩
  · intro x hx hxe
    rw [hs] at hx
    exact h x hx hxe
  · intro x hx hxe
    rw [hs] at hx
    simp at hx
    rcases hx with hx | hx
    · exact h x hx hxe
    · rw [hx]

/-- `applyPatch` preserves the execute-message invariant. -/
theorem applyPatch_execSent {Cmd Op Model : Type} (p : Option (List Op))
    (s : TCState Cmd Op Model) (h : execSentAfterUUID s) :
    execSentAfterUUID (applyPatch p s).2 := by
  unfold applyPatch
  by_cases hso : s.socketOpen = true <;> simp [hso]
  · rcases p with _ | (_ | ⟨q, qs⟩)
    · exact h
    · exact h
    · exact autoRollback_execSent _ (sendExecuteMessage_execSent _ _ h)
  · exact h

/-- Running a transaction function preserves the execute-message invariant
provided its executor and patch applier do. -/
theorem runTxFun_execSent {Cmd Op Model : Type}
    (exec : Cmd → TCState Cmd Op Model →
      Except String (ModelUpdateResult Op Model) × TCState Cmd Op Model)
    (applyP : Option (List Op) → TCState Cmd Op Model →
      Except String (ModelUpdateResult Op Model) × TCState Cmd Op Model)
    (hexec : ∀ c s, execSentAfterUUID s → execSentAfterUUID (exec c s).2)
    (happ : ∀ p s, execSentAfterUUID s → execSentAfterUUID (applyP p s).2)
    (f : TxFun Cmd Op Model) :
    ∀ s, execSentAfterUUID s → execSentAfterUUID (runTxFun exec applyP f s).2 := by
  induction f with
  | done b => intro s h; exact h
  | editPatch p k ih =>
    intro s h
    unfold runTxFun
    rcases hres : applyP p s with ⟨res, s1⟩
    have h1 : execSentAfterUUID s1 := by have := happ p s h; rwa [hres] at this
    cases res with
    | error e => simpa [hres] using h1
    | ok r => simpa [hres] using ih r s1 h1
  | editCmd c k ih =>
    intro s h
    unfold runTxFun
    rcases hres : exec c s with ⟨res, s1⟩
    have h1 : execSentAfterUUID s1 := by have := hexec c s h; rwa [hres] at this
    cases res with
    | error e => simpa [hres] using h1
    | ok r => simpa [hres] using ih r s1 h1

/-- One `doExecute` unfolding preserves the execute-message invariant. -/
theorem doExecuteStep_execSent {Cmd Op Model : Type} (env : Env Cmd Op Model)
    (exec : Cmd → TCState Cmd Op Model →
      Except String (ModelUpdateResult Op Model) × TCState Cmd Op Model)
    (hexec : ∀ c s, execSentAfterUUID s → execSentAfterUUID (exec c s).2)
    (c : Cmd) (s : TCState Cmd Op Model) (h : execSentAfterUUID s) :
    execSentAfterUUID (doExecuteStep env exec c s).2 := by
  unfold doExecuteStep
  by_cases hp : env.hasProvider (env.cmdType c) = true <;> simp [hp]
  · cases hgc : env.getCommands c with
    | txFun f =>
      have hpush : execSentAfterUUID (pushNestedContext s) := h
      rcases hrun : runTxFun exec applyPatch f (pushNestedContext s) with ⟨res, s1⟩
      have h1 : execSentAfterUUID s1 := by
        have := runTxFun_execSent exec applyPatch hexec
          (fun p s hh => applyPatch_execSent p s hh) f (pushNestedContext s) hpush
        rwa [hrun] at this
      cases res with
      | error e => simpa [hrun] using h1
      | ok b =>
        cases b
        · simpa [hrun] using popNestedContext_execSent s1 h1
        · simpa [hrun] using popNestedContext_execSent s1 h1
    | cmd c1 =>
      simpa [hgc, sendCommand] using sendExecuteMessage_execSent _ _ h
    | patch p =>
      simpa [hgc, sendPatch] using sendExecuteMessage_execSent _ _ h
  · exact sendExecuteMessage_execSent _ _ h

/-- The fuelled executor preserves the execute-message invariant. -/
theorem execRec_execSent {Cmd Op Model : Type} (env : Env Cmd Op Model) :
    ∀ (fuel : Nat) (c : Cmd) (s : TCState Cmd Op Model), execSentAfterUUID s →
      execSentAfterUUID (execRec env fuel c s).2 := by
  intro fuel
  induction fuel with
  | zero => intro c s h; exact h
  | succ n ih =>
    intro c s h
    show execSentAfterUUID (executeStep env (execRec env n) c s).2
    unfold executeStep
    by_cases hso : s.socketOpen = true <;> simp [hso]
    · exact autoRollback_execSent _
        (doExecuteStep_execSent env (execRec env n) (fun c s hh => ih c s hh) c s h)
    · exact h

/-- `execute` preserves the execute-message invariant. -/
theorem execute_execSent {Cmd Op Model : Type} (env : Env Cmd Op Model)
    (fuel : Nat) (c : Cmd) (s : TCState Cmd Op Model) (h : execSentAfterUUID s) :
    execSentAfterUUID (execute env fuel c s).2 := by
  unfold execute executeStep
  by_cases hso : s.socketOpen = true <;> simp [hso]
  · exact autoRollback_execSent _
      (doExecuteStep_execSent env (execRec env fuel)
        (fun c s hh => execRec_execSent env fuel c s hh) c s h)
  · exact h

/-- `performTriggers` preserves the execute-message invariant. -/
theorem performTriggers_execSent {Cmd Op Model : Type} (env : Env Cmd Op Model)
    (execFuel : Nat) (t : Triggers Cmd Op Model) (s : TCState Cmd Op Model)
    (h : execSentAfterUUID s) : execSentAfterUUID (performTriggers env execFuel t s).2 := by
  unfold performTriggers
  have hpush : execSentAfterUUID (pushNestedContext s) := h
  cases t with
  | txFun f =>
    rcases hrun : runTxFun (execute env execFuel) applyPatch f (pushNestedContext s)
      with ⟨res, s1⟩
    have h1 : execSentAfterUUID s1 := by
      have := runTxFun_execSent (execute env execFuel) applyPatch
        (fun c s hh => execute_execSent env execFuel c s hh)
        (fun p s hh => applyPatch_execSent p s hh) f (pushNestedContext s) hpush
      rwa [hrun] at this
    cases res with
    | error e => simpa [hrun] using popNestedContext_execSent s1 h1
    | ok b => simpa [hrun] using popNestedContext_execSent s1 h1
  | patch ops =>
    rcases hap : applyPatch (some ops) (pushNestedContext s) with ⟨res, s1⟩
    have h1 : execSentAfterUUID s1 := by
      have := applyPatch_execSent (some ops) (pushNestedContext s) hpush
      rwa [hap] at this
    cases res with
    | error e => simpa [hap] using popNestedContext_execSent s1 h1
    | ok r => simpa [hap] using popNestedContext_execSent s1 h1

/-- The commit trigger loop preserves the execute-message invariant. -/
theorem commitLoop_execSent {Cmd Op Model : Type} (env : Env Cmd Op Model)
    (execFuel : Nat) :
    ∀ (loopFuel : Nat) (u : ModelUpdateResult Op Model) (delta : Option (List Op))
      (s : TCState Cmd Op Model), execSentAfterUUID s →
      execSentAfterUUID (commitLoop env execFuel loopFuel u delta s).2 := by
  intro loopFuel
  induction loopFuel with
  | zero => intro u delta s h; exact h
  | succ n ih =>
    intro u delta s h
    rcases delta with _ | (_ | ⟨d, ds⟩)
    · exact socketSend_execSent _ _ rfl h
    · exact socketSend_execSent _ _ rfl h
    · show execSentAfterUUID (commitLoop env execFuel (n + 1) u (some (d :: ds)) s).2
      unfold commitLoop
      cases hgt : env.getTriggers (d :: ds) with
      | error e => simpa [hgt] using rollback_execSent e s h
      | ok t =>
        by_cases ht : hasTriggers t = true <;> simp [hgt, ht]
        · rcases hpt : performTriggers env execFuel t s with ⟨res, s1⟩
          have h1 : execSentAfterUUID s1 := by
            have := performTriggers_execSent env execFuel t s h
            rwa [hpt] at this
          cases res with
          | error e => exact h1
          | ok tr => exact ih _ _ s1 h1
        · exact ih u none s h

/-- `commit` preserves the execute-message invariant. -/
theorem commit_execSent {Cmd Op Model : Type} (env : Env Cmd Op Model)
    (loopFuel execFuel : Nat) (s : TCState Cmd Op Model) (h : execSentAfterUUID s) :
    execSentAfterUUID (commit env loopFuel execFuel s).2 := by
  unfold commit
  rcases hpop : popNestedContext s with ⟨u, s1⟩
  have h1 : execSentAfterUUID s1 := by
    have := popNestedContext_execSent s h
    rwa [hpop] at this
  by_cases hso : s1.socketOpen = true <;> simp [hpop, hso]
  · exact commitLoop_execSent env execFuel loopFuel u u.patch s1 h1
  · exact h1

/-- Every client call preserves the execute-message invariant. -/
theorem applyCall_execSent {Cmd Op Model : Type} (env : Env Cmd Op Model)
    (call : ClientCall Cmd Op) (s : TCState Cmd Op Model) (h : execSentAfterUUID s) :
    execSentAfterUUID (applyCall env call s) := by
  cases call with
  | callApplyPatch p => exact applyPatch_execSent p s h
  | callExecute fuel c => exact execute_execSent env fuel c s h
  | callCommit lf ef => exact commit_execSent env lf ef s h
  | callRollback e => exact rollback_execSent e s h

/-- Sequences of client calls preserve the execute-message invariant. -/
theorem runCalls_execSent {Cmd Op Model : Type} (env : Env Cmd Op Model) :
    ∀ (calls : List (ClientCall Cmd Op)) (s : TCState Cmd Op Model), execSentAfterUUID s →
      execSentAfterUUID (runCalls env calls s) := by
  intro calls
  induction calls with
  | nil => intro s h; exact h
  | cons call rest ih =>
    intro s h
    exact ih (applyCall env call s) (applyCall_execSent env call s h)

/-- C9, counterexample: the manager registers the root context in its
`transactions` map before `open()` resolves, so a second `openTransaction`
on the same URI during the awaiting-uuid window — socket open from `onopen`,
uuid not yet received — returns a nested proxy whose `rollback` delegates to
the root's `rollback`; that send is guarded only by `isOpen()` and does not
await the uuid, so the `roll-back` message goes out with the uuid not yet
received (flag `false`), refuting the claim for roll-back messages. -/
theorem c9_pre_uuid_rollback_counterexample :
    (openNestedTransaction (sampleAwaiting [])).socketOpen = true ∧
    (openNestedTransaction (sampleAwaiting [])).uuidReceived = false ∧
    (rollback "cancelled" (openNestedTransaction (sampleAwaiting []))).2.sent =
      [(.rollBack, false)] :=
  ⟨rfl, rfl, rfl⟩

/-- C9, amended: no `execute` message is ever sent before the uuid has been
received — `sendExecuteMessage` awaits the uuid, so from any start state
whose earlier execute messages were post-uuid (including the pre-uuid state
a nested proxy is handed), every execute message in the trace carries the
uuid-received flag; and on a root context handed to its caller by the
resolved `open()` promise, every message — including the `close` sent by
commit and the `roll-back` sent by rollback — is sent after the uuid.  A
nested proxy obtained during the awaiting-uuid window can however send a
`roll-back` before the uuid (see the counterexample). -/
theorem c9_uuid_ordering_amended {Cmd Op Model : Type} (env : Env Cmd Op Model)
    (calls calls2 : List (ClientCall Cmd Op)) (s : TCState Cmd Op Model)
    (replies : List (Except String (ModelUpdateResult Op Model)))
    (x y : TxMsg Cmd Op × Bool)
    (hstart : execSentAfterUUID s)
    (hx : x ∈ (runCalls env calls s).sent) (hxe : x.1.isExecuteMsg = true)
    (hy : y ∈ (runCalls env calls2 (openState replies)).sent) :
    x.2 = true ∧ y.2 = true :=
  ⟨runCalls_execSent env calls s hstart x hx hxe,
   (runCalls_sentAfterUUID env calls2 (openState replies) ⟨rfl, by simp [openState]⟩).2 y hy⟩

/-- C9, witness for the amended theorem: a patch applied through a nested
proxy handed out pre-uuid yields an execute message flagged post-uuid, and a
resolved root's trace (execute, close, roll-back) is entirely post-uuid. -/
theorem c9_uuid_ordering_amended_witness :
    (execSentAfterUUID (openNestedTransaction (sampleAwaiting
        [.ok { success := true, patch := some [2] }])) ∧
      ((.execute (.patch [2]), true) : TxMsg String Nat × Bool) ∈
        (runCalls sampleEnv [.callApplyPatch (some [2])]
          (openNestedTransaction (sampleAwaiting
            [.ok { success := true, patch := some [2] }]))).sent ∧
      ((.execute (.patch [2]), true) : TxMsg String Nat × Bool).1.isExecuteMsg = true ∧
      ((.rollBack, true) : TxMsg String Nat × Bool) ∈
        (runCalls sampleEnv
          [.callApplyPatch (some [1]), .callCommit 2 1, .callRollback "late"]
          (openState [.ok { success := true, patch := some [1] }])).sent) ∧
    ((.execute (.patch [2]), true) : TxMsg String Nat × Bool).2 = true ∧
    ((.rollBack, true) : TxMsg String Nat × Bool).2 = true := by
  have hstart : execSentAfterUUID (openNestedTransaction (sampleAwaiting
      [.ok { success := true, patch := some [2] }])) :=
    fun x hx _ => absurd hx (List.not_mem_nil x)
  have hsent1 : (runCalls sampleEnv [.callApplyPatch (some [2])]
      (openNestedTransaction (sampleAwaiting
        [.ok { success := true, patch := some [2] }]))).sent =
      [(.execute (.patch [2]), true)] := rfl
  have hx : ((.execute (.patch [2]), true) : TxMsg String Nat × Bool) ∈
      (runCalls sampleEnv [.callApplyPatch (some [2])]
        (openNestedTransaction (sampleAwaiting
          [.ok { success := true, patch := some [2] }]))).sent := by
    rw [hsent1]
    exact List.mem_singleton.mpr rfl
  have hsent2 : (runCalls sampleEnv
      [.callApplyPatch (some [1]), .callCommit 2 1, .callRollback "late"]
      (openState [.ok { success := true, patch := some [1] }])).sent =
      [(.execute (.patch [1]), true), (.close, true), (.rollBack, true)] := rfl
  have hy : ((.rollBack, true) : TxMsg String Nat × Bool) ∈
      (runCalls sampleEnv
        [.callApplyPatch (some [1]), .callCommit 2 1, .callRollback "late"]
        (openState [.ok { success := true, patch := some [1] }])).sent := by
    rw [hsent2]
    simp
  have happ := c9_uuid_ordering_amended sampleEnv [.callApplyPatch (some [2])]
    [.callApplyPatch (some [1]), .callCommit 2 1, .callRollback "late"]
    (openNestedTransaction (sampleAwaiting [.ok { success := true, patch := some [2] }]))
    [.ok { success := true, patch := some [1] }]
    (.execute (.patch [2]), true) (.rollBack, true) hstart hx rfl hy
  exact ⟨⟨hstart, hx, rfl, hy⟩, happ.1, happ.2⟩

end ModelserverNode

namespace ModelserverNode

/-- A key absent from the transactions map has no entry. -/
theorem findTx_eq_none_iff (key : String) (l : List (String × Nat)) :
    findTx key l = none ↔ key ∉ l.map Prod.fst := by
  induction l with
  | nil => simp [findTx]
  | cons e rest ih =>
    rcases e with ⟨k, v⟩
    simp only [findTx, List.map_cons, List.mem_cons]
    by_cases hk : k = key
    · subst hk
      simp
    · have hk2 : ¬ key = k := fun h => hk h.symm
      simp [hk, hk2, ih]

/-- Removing a key from the transactions map removes every entry for it. -/
theorem findTx_filter_ne (key : String) (l : List (String × Nat)) :
    findTx key (l.filter (fun e => e.1 != key)) = none := by
  induction l with
  | nil => simp [findTx]
  | cons e rest ih =>
    rcases e with ⟨k, v⟩
    by_cases hk : k = key
    · subst hk
      simpa [List.filter_cons] using ih
    · have hkb : (k != key) = true := by simp [hk]
      simpa [List.filter_cons, hkb, findTx, hk] using ih

/-- One manager event preserves distinctness of the map's URI keys. -/
theorem mgrStep_nodup (norm : String → String) (ev : MgrEvent) (m : MgrState)
    (h : (m.txmap.map Prod.fst).Nodup) :
    (((mgrStep norm ev m).txmap.map Prod.fst)).Nodup := by
  cases ev with
  | openTx u =>
    show (((mgrOpen norm u m).2.txmap.map Prod.fst)).Nodup
    unfold mgrOpen
    cases hf : findTx (norm u) m.txmap with
    | some tc => simpa [hf] using h
    | none =>
      simp only [hf, List.map_cons]
      refine List.Nodup.cons ?_ h
      exact (findTx_eq_none_iff (norm u) m.txmap).mp hf
  | closeTx u tc =>
    show ((mgrClose norm u tc m).txmap.map Prod.fst).Nodup
    unfold mgrClose
    by_cases hc : findTx (norm u) m.txmap = some tc <;> simp only [hc, if_true, if_false]
    · exact List.Nodup.sublist ((List.filter_sublist m.txmap).map Prod.fst) h
    · exact h

/-- Every reachable manager state has distinct URI keys. -/
theorem mgrRun_nodup (norm : String → String) (events : List MgrEvent) :
    ((mgrRun norm events).txmap.map Prod.fst).Nodup := by
  suffices h : ∀ (m : MgrState), (m.txmap.map Prod.fst).Nodup →
      ((events.foldl (fun m e => mgrStep norm e m) m).txmap.map Prod.fst).Nodup by
    exact h { txmap := [], nextId := 0 } (by simp)
  induction events with
  | nil => intro m hm; exact hm
  | cons ev rest ih =>
    intro m hm
    exact ih (mgrStep norm ev m) (mgrStep_nodup norm ev m hm)

/-- C5: in every manager state reachable from the empty map, the normalized
URI keys are pairwise distinct, so at most one root transaction context is
registered per model URI; a second `openTransaction` on a URI whose key is
already mapped delegates to the existing context — yielding a nested child —
and leaves the map unchanged; and the close callback removes the URI's entry
exactly when the current mapping still equals the closing context, leaving
the map untouched (never clobbering a fresh context) when a different
context is currently registered. -/
theorem c5_one_root_per_uri (norm : String → String) (events : List MgrEvent)
    (u : String) (tc tc2 : Nat) (m : MgrState) :
    ((mgrRun norm events).txmap.map Prod.fst).Nodup ∧
    (findTx (norm u) m.txmap = some tc → mgrOpen norm u m = (.nested tc, m)) ∧
    (findTx (norm u) m.txmap = some tc →
      findTx (norm u) (mgrClose norm u tc m).txmap = none) ∧
    (findTx (norm u) m.txmap = some tc2 → tc2 ≠ tc → mgrClose norm u tc m = m) := by
  refine ⟨mgrRun_nodup norm events, fun h => ?_, fun h => ?_, fun h hne => ?_⟩
  · simp [mgrOpen, h]
  · simp only [mgrClose, h, if_true]
    exact findTx_filter_ne (norm u) m.txmap
  · have hc : ¬ (findTx (norm u) m.txmap = some tc) := by
      rw [h]
      simp [hne]
    simp [mgrClose, hc]

/-- C5, witness: a concrete map with one root context on `file:/m1`: a second
open yields a nested child; the callback of context 0 removes the entry;
the callback of a stale context 7 does not clobber it. -/
theorem c5_one_root_per_uri_witness :
    ((mgrRun (fun s => s) [.openTx "file:/m1"]).txmap.map Prod.fst).Nodup ∧
    (findTx "file:/m1" [("file:/m1", 0)] = some 0 ∧
      mgrOpen (fun s => s) "file:/m1" { txmap := [("file:/m1", 0)], nextId := 1 } =
        (.nested 0, { txmap := [("file:/m1", 0)], nextId := 1 })) ∧
    (findTx "file:/m1"
        (mgrClose (fun s => s) "file:/m1" 0
          { txmap := [("file:/m1", 0)], nextId := 1 }).txmap = none) ∧
    (0 ≠ 7 ∧
      mgrClose (fun s => s) "file:/m1" 7 { txmap := [("file:/m1", 0)], nextId := 1 } =
        { txmap := [("file:/m1", 0)], nextId := 1 }) := by
  have hfind : findTx "file:/m1" [("file:/m1", 0)] = some 0 := by
    simp [findTx]
  refine ⟨(c5_one_root_per_uri (fun s => s) [.openTx "file:/m1"] "file:/m1" 0 0
    { txmap := [("file:/m1", 0)], nextId := 1 }).1, ⟨hfind, ?_⟩, ?_, by decide, ?_⟩
  · exact (c5_one_root_per_uri (fun s => s) [.openTx "file:/m1"] "file:/m1" 0 0
      { txmap := [("file:/m1", 0)], nextId := 1 }).2.1 hfind
  · exact (c5_one_root_per_uri (fun s => s) [.openTx "file:/m1"] "file:/m1" 0 0
      { txmap := [("file:/m1", 0)], nextId := 1 }).2.2.1 hfind
  · exact (c5_one_root_per_uri (fun s => s) [.openTx "file:/m1"] "file:/m1" 7 0
      { txmap := [("file:/m1", 0)], nextId := 1 }).2.2.2 hfind (by decide)

end ModelserverNode

namespace ModelserverNode.Gateway

/-- Every standard route begins with a slash. -/
theorem standard_routes_head (r : String) (h : r ∈ STANDARD_ROUTES) :
    r.data.head? = some '/' := by
  fin_cases h <;> rfl

/-- A packed character list is the empty string exactly when the list is
empty. -/
theorem string_mk_ne_empty_iff (l : List Char) : String.mk l ≠ "" ↔ l ≠ [] := by
  constructor
  · intro h hl
    exact h (by rw [hl])
  · intro h hl
    exact h (congrArg String.data hl)

/-- The route pattern match characterised: a route is a Model Server route
exactly when it is `/api/v` followed by a nonempty version of digits and
dots and then a standard route. -/
theorem isModelServerRoute_iff (p : String) :
    isModelServerRoute p = true ↔
    ∃ ver rest : String, p = "/api/v" ++ ver ++ rest ∧ ver ≠ "" ∧
      (∀ c ∈ ver.data, isVersionChar c = true) ∧ rest ∈ STANDARD_ROUTES := by
  constructor
  · intro h
    unfold isModelServerRoute at h
    split at h
    case _ rest0 heq =>
      simp only [Bool.and_eq_true, Bool.not_eq_true'] at h
      obtain ⟨hne, h2⟩ := h
      split at h2
      case _ t heq2 =>
        rw [heq2] at h2
        refine ⟨String.mk (rest0.takeWhile isVersionChar), String.mk ('/' :: t),
          ?_, ?_, ?_, ?_⟩
        · apply String.ext
          show p.data = "/api/v".data ++ rest0.takeWhile isVersionChar ++ ('/' :: t)
          rw [heq]
          show '/' :: 'a' :: 'p' :: 'i' :: '/' :: 'v' :: rest0 =
            '/' :: 'a' :: 'p' :: 'i' :: '/' :: 'v' ::
              (rest0.takeWhile isVersionChar ++ ('/' :: t))
          rw [← heq2, List.takeWhile_append_dropWhile]
        · rw [string_mk_ne_empty_iff]
          intro hnil
          rw [hnil] at hne
          simp at hne
        · intro c hc
          exact List.mem_takeWhile_imp hc
        · exact List.elem_iff.mp h2
      case _ => exact absurd h2 (by simp)
    case _ => exact absurd h (by simp)
  · rintro ⟨ver, rest, rfl, hne, hall, hmem⟩
    have hhead := standard_routes_head rest hmem
    obtain ⟨t, ht⟩ : ∃ t, rest.data = '/' :: t := by
      cases hr : rest.data with
      | nil => rw [hr] at hhead; exact absurd hhead (by simp)
      | cons c t =>
        rw [hr] at hhead
        simp at hhead
        exact ⟨t, by rw [hhead]⟩
    have hdata : ("/api/v" ++ ver ++ rest).data =
        '/' :: 'a' :: 'p' :: 'i' :: '/' :: 'v' :: (ver.data ++ '/' :: t) := by
      simp [ht]
    unfold isModelServerRoute
    rw [hdata]
    have hslash : isVersionChar '/' = false := by decide
    have htake : (ver.data ++ '/' :: t).takeWhile isVersionChar = ver.data := by
      rw [List.takeWhile_append_of_pos (by simpa using hall)]
      simp [hslash]
    have hdrop : (ver.data ++ '/' :: t).dropWhile isVersionChar = '/' :: t := by
      rw [List.dropWhile_append_of_pos (by simpa using hall)]
      simp [hslash]
    have hver : ver.data.isEmpty = false := by
      cases hl : ver.data with
      | nil => exact absurd (String.ext (by simp [hl]) : ver = "") hne
      | cons c cs => rfl
    have hrest_eq : (String.mk ('/' :: t)) = rest := String.ext (by simpa using ht.symm)
    simp only [htake, hdrop, hver, hrest_eq]
    simpa using hmem

/-- Membership in one router's backstop contribution. -/
theorem mem_routerBackstops_iff (r : PluginRouter) (p : String) :
    p ∈ routerBackstops r ↔
    (r.forwardToUpstream.getD false = false ∧
      (∃ lp ∈ r.layerPaths, p = dropTrailingSlashes (r.route ++ lp.getD "")) ∧
      (r.forwardToUpstream = some false ∨ isModelServerRoute p = false)) := by
  unfold routerBackstops
  cases hgd : r.forwardToUpstream.getD false
  · have hexpl : (r.forwardToUpstream.isSome = true) ↔ r.forwardToUpstream = some false := by
      cases hopt : r.forwardToUpstream with
      | none => simp
      | some b =>
        rw [hopt] at hgd
        simp at hgd
        simp [hgd]
    simp only [hgd, if_false, Bool.false_eq_true, List.mem_filter, List.mem_map]
    constructor
    · rintro ⟨⟨q, ⟨lp, hlp, rfl⟩, rfl⟩, hpred⟩
      simp only [Bool.or_eq_true, Bool.not_eq_true'] at hpred
      exact ⟨trivial, ⟨lp, hlp, rfl⟩, hpred.imp hexpl.mp id⟩
    · rintro ⟨-, ⟨lp, hlp, rfl⟩, hor⟩
      refine ⟨⟨r.route ++ lp.getD "", ⟨lp, hlp, rfl⟩, rfl⟩, ?_⟩
      simp only [Bool.or_eq_true, Bool.not_eq_true']
      exact hor.imp hexpl.mpr id
  · simp only [hgd, if_true, List.not_mem_nil, false_iff]
    rintro ⟨hfalse, -, -⟩
    exact absurd hfalse (by simp)

/-- Membership in the installed backstop set. -/
theorem mem_installBackstops_iff (routers : List PluginRouter) (p : String) :
    p ∈ installBackstops routers ↔
    ∃ r ∈ routers, r.forwardToUpstream.getD false = false ∧
      (∃ lp ∈ r.layerPaths, p = dropTrailingSlashes (r.route ++ lp.getD "")) ∧
      (r.forwardToUpstream = some false ∨ isModelServerRoute p = false) := by
  unfold installBackstops
  rw [List.mem_flatten]
  constructor
  · rintro ⟨l, hl, hpl⟩
    obtain ⟨r, hr, rfl⟩ := List.mem_map.mp hl
    exact ⟨r, hr, (mem_routerBackstops_iff r p).mp hpl⟩
  · rintro ⟨r, hr, hprops⟩
    exact ⟨routerBackstops r, List.mem_map.mpr ⟨r, hr, rfl⟩,
      (mem_routerBackstops_iff r p).mpr hprops⟩

/-- `shouldBackstop` decides membership in the backstop set. -/
theorem shouldBackstop_iff (bs : List String) (p : String) :
    shouldBackstop bs p = true ↔ p ∈ bs := by
  simp [shouldBackstop, List.contains]

/-- Stripping trailing slashes leaves no trailing slash. -/
theorem dropTrailingSlashes_getLast (s : String) :
    (dropTrailingSlashes s).data.getLast? ≠ some '/' := by
  unfold dropTrailingSlashes
  rw [show (String.mk ((s.data.reverse.dropWhile (fun c => c = '/')).reverse)).data =
    (s.data.reverse.dropWhile (fun c => c = '/')).reverse from rfl]
  rw [List.getLast?_eq_head?_reverse, List.reverse_reverse]
  intro h
  have hw := List.head?_dropWhile_not (fun c => decide (c = '/')) s.data.reverse
  rw [h] at hw
  simp at hw

/-- C8: after route installation the backstop set contains exactly the
trailing-slash-stripped full paths of the routes of every router whose
`forwardToUpstream` option is falsy, minus the paths of the form
`/api/v<version>` followed by a STANDARD_ROUTE unless the router explicitly
set `forwardToUpstream` to `false`; a non-upgrade request whose path is in
the backstop set is not forwarded and every other non-upgrade request is
forwarded to Upstream. -/
theorem c8_backstop_correctness (routers : List PluginRouter) (p : String) :
    (p ∈ installBackstops routers ↔
      ∃ r ∈ routers, r.forwardToUpstream.getD false = false ∧
        (∃ lp ∈ r.layerPaths, p = dropTrailingSlashes (r.route ++ lp.getD "")) ∧
        (r.forwardToUpstream = some false ∨ isModelServerRoute p = false)) ∧
    (isModelServerRoute p = true ↔
      ∃ ver rest : String, p = "/api/v" ++ ver ++ rest ∧ ver ≠ "" ∧
        (∀ c ∈ ver.data, isVersionChar c = true) ∧ rest ∈ STANDARD_ROUTES) ∧
    (forwardDecision (installBackstops routers) false p = .backstopped ↔
      p ∈ installBackstops routers) ∧
    (forwardDecision (installBackstops routers) false p = .forwarded ↔
      p ∉ installBackstops routers) := by
  refine ⟨mem_installBackstops_iff routers p, isModelServerRoute_iff p, ?_⟩
  have hsb := shouldBackstop_iff (installBackstops routers) p
  by_cases hm : p ∈ installBackstops routers
  · have h1 : shouldBackstop (installBackstops routers) p = true := hsb.mpr hm
    refine ⟨?_, ?_⟩ <;> simp [forwardDecision, h1, hm]
  · have h1 : shouldBackstop (installBackstops routers) p = false := by
      cases hval : shouldBackstop (installBackstops routers) p
      · rfl
      · exact absurd (hsb.mp hval) hm
    refine ⟨?_, ?_⟩ <;> simp [forwardDecision, h1, hm]

/-- C8, witness: a router mounted at `/api/v2` with layers `/foo` and
`/models` and no `forwardToUpstream` option backstops `/api/v2/foo` (not a
standard route) but forwards `/api/v2/models` (a standard route). -/
theorem c8_backstop_correctness_witness :
    installBackstops
        [{ route := "/api/v2", layerPaths := [some "/foo", some "/models"],
           forwardToUpstream := none }] = ["/api/v2/foo"] ∧
    forwardDecision
        (installBackstops
          [{ route := "/api/v2", layerPaths := [some "/foo", some "/models"],
             forwardToUpstream := none }]) false "/api/v2/foo" = .backstopped ∧
    forwardDecision
        (installBackstops
          [{ route := "/api/v2", layerPaths := [some "/foo", some "/models"],
             forwardToUpstream := none }]) false "/api/v2/models" = .forwarded := by
  have hset : installBackstops
      [{ route := "/api/v2", layerPaths := [some "/foo", some "/models"],
         forwardToUpstream := none }] = ["/api/v2/foo"] := by decide
  refine ⟨hset, ?_, ?_⟩
  · exact (c8_backstop_correctness
      [{ route := "/api/v2", layerPaths := [some "/foo", some "/models"],
         forwardToUpstream := none }] "/api/v2/foo").2.2.1.mpr
      (by rw [hset]; exact List.mem_singleton.mpr rfl)
  · exact (c8_backstop_correctness
      [{ route := "/api/v2", layerPaths := [some "/foo", some "/models"],
         forwardToUpstream := none }] "/api/v2/models").2.2.2.mpr
      (by rw [hset]; simp)

/-- C10: backstop membership is exact string matching against paths whose
trailing slashes were stripped at registration, so for any backstopped path
the same path with a trailing slash appended is not in the backstop set and
a non-upgrade request for it is forwarded to Upstream. -/
theorem c10_trailing_slash_forwarded (routers : List PluginRouter) (p : String)
    (h : shouldBackstop (installBackstops routers) p = true) :
    shouldBackstop (installBackstops routers) (p ++ "/") = false ∧
    forwardDecision (installBackstops routers) false (p ++ "/") = .forwarded := by
  have hnotmem : (p ++ "/") ∉ installBackstops routers := by
    intro hmem
    obtain ⟨r, hr, -, ⟨lp, hlp, heq⟩, -⟩ :=
      (mem_installBackstops_iff routers (p ++ "/")).mp hmem
    have hlast : (p ++ "/").data.getLast? = some '/' := by
      rw [String.data_append]
      exact List.getLast?_concat _
    rw [heq] at hlast
    exact dropTrailingSlashes_getLast _ hlast
  have hsb : shouldBackstop (installBackstops routers) (p ++ "/") = false := by
    cases hval : shouldBackstop (installBackstops routers) (p ++ "/")
    · rfl
    · exact absurd ((shouldBackstop_iff _ _).mp hval) hnotmem
  exact ⟨hsb, by simp [forwardDecision, hsb]⟩

/-- C10, witness: the locally served `/api/v2/bar` is backstopped while
`/api/v2/bar/` is forwarded. -/
theorem c10_trailing_slash_forwarded_witness :
    shouldBackstop
        (installBackstops
          [{ route := "/api/v2/bar", layerPaths := [some ""],
             forwardToUpstream := none }]) "/api/v2/bar" = true ∧
    shouldBackstop
        (installBackstops
          [{ route := "/api/v2/bar", layerPaths := [some ""],
             forwardToUpstream := none }]) ("/api/v2/bar" ++ "/") = false ∧
    forwardDecision
        (installBackstops
          [{ route := "/api/v2/bar", layerPaths := [some ""],
             forwardToUpstream := none }]) false ("/api/v2/bar" ++ "/") = .forwarded := by
  have hb : shouldBackstop
      (installBackstops
        [{ route := "/api/v2/bar", layerPaths := [some ""],
           forwardToUpstream := none }]) "/api/v2/bar" = true := by decide
  refine ⟨hb, ?_, ?_⟩
  · exact (c10_trailing_slash_forwarded
      [{ route := "/api/v2/bar", layerPaths := [some ""], forwardToUpstream := none }]
      "/api/v2/bar" hb).1
  · exact (c10_trailing_slash_forwarded
      [{ route := "/api/v2/bar", layerPaths := [some ""], forwardToUpstream := none }]
      "/api/v2/bar" hb).2

end ModelserverNode.Gateway
